import Mathlib

/-!
Verification of the `lalonde302/epstein` repository's search API against its
specification.

The repository's source under scrutiny is `api/src/functions/search.ts`
(the Azure Functions `GET /api/search` handler) together with the frontend
code shown in the README (the `SearchResult` and `SearchResponse` types and
the frontend `clampK`).  JavaScript numbers are modelled by `JSNum`
(NaN, the two infinities, or a finite rational); the ECMAScript
`Number(string)` conversion is modelled by `jsToNumber`, and
`String.prototype.trim` by `jsTrim`.  The ingestion pipeline (download
manifest, chunker, indexer) is not part of the source tree; where a claim
needs it, it is modelled from the spec and marked as such.
-/

/-- A JavaScript number: NaN, +Infinity, -Infinity, or a finite value.
Finite doubles are embedded as rationals (every finite double is a
rational; the operations used by the code under scrutiny — `isFinite`,
`floor`, `min`, `max` — are exact on doubles). -/
inductive JSNum where
  | nan : JSNum
  | posInf : JSNum
  | negInf : JSNum
  | finite : ℚ → JSNum
deriving DecidableEq

/-- JS Number.isFinite. -/
def JSNum.isFinite : JSNum → Bool
  | JSNum.finite _ => true
  | _ => false

/-- JavaScript unary minus on numbers. -/
def JSNum.neg : JSNum → JSNum
  | JSNum.nan => JSNum.nan
  | JSNum.posInf => JSNum.negInf
  | JSNum.negInf => JSNum.posInf
  | JSNum.finite q => JSNum.finite (-q)

/-- JavaScript `<=` on numbers: false whenever either side is NaN. -/
def jsNumLe : JSNum → JSNum → Bool
  | JSNum.nan, _ => false
  | _, JSNum.nan => false
  | JSNum.negInf, _ => true
  | _, JSNum.posInf => true
  | JSNum.posInf, _ => false
  | _, JSNum.negInf => false
  | JSNum.finite a, JSNum.finite b => decide (a ≤ b)

/-- The ECMAScript whitespace set used by `String.prototype.trim` and by
`ToNumber` on strings: WhiteSpace (TAB, VT, FF, SP, NBSP, ZWNBSP, Zs)
plus LineTerminator (LF, CR, LS, PS). -/
def isJsWhitespaceChar (c : Char) : Bool :=
  c = ' ' || c = '\t' || c = '\n' || c = '\r' ||
  c = '\x0b' || c = '\x0c' || c = ' ' || c = ' ' ||
  (0x2000 ≤ c.toNat && c.toNat ≤ 0x200a) ||
  c = ' ' || c = ' ' || c = ' ' || c = ' ' ||
  c = '　' || c = '﻿'

/-- Strip leading and trailing JS whitespace from a character list. -/
def jsTrimList (l : List Char) : List Char :=
  ((l.dropWhile isJsWhitespaceChar).reverse.dropWhile isJsWhitespaceChar).reverse

/-- JavaScript `String.prototype.trim`. -/
def jsTrim (s : String) : String :=
  String.mk (jsTrimList s.toList)

/-- Value of a decimal digit character. -/
def decDigitVal (c : Char) : Nat := c.toNat - 48

/-- Value of a list of decimal digits, most significant first. -/
def decDigitsVal (l : List Char) : Nat :=
  l.foldl (fun a c => 10 * a + decDigitVal c) 0

/-- Value of a digit character in a radix up to 36 (0-9, a-z, A-Z). -/
def radixDigitVal (c : Char) : Nat :=
  if c.isDigit then c.toNat - 48
  else if 'a' ≤ c ∧ c ≤ 'z' then c.toNat - 87
  else if 'A' ≤ c ∧ c ≤ 'Z' then c.toNat - 55
  else 36

/-- Is `c` a valid digit in base `b`? -/
def isRadixDigit (b : Nat) (c : Char) : Bool :=
  decide (radixDigitVal c < b)

/-- Parse a non-empty all-valid digit string in base `b`; `none` otherwise.
Models the NonDecimalIntegerLiteral bodies of ECMAScript ToNumber. -/
def parseRadixDigits (b : Nat) (l : List Char) : Option Nat :=
  if !l.isEmpty && l.all (isRadixDigit b) then
    some (l.foldl (fun a c => b * a + radixDigitVal c) 0)
  else none

/-- Parse an optional ExponentPart that must consume the whole list:
empty means exponent 0; otherwise `e`/`E`, an optional sign, and at
least one decimal digit. -/
def parseExponentRest : List Char → Option Int
  | [] => some 0
  | c :: rest =>
    if c = 'e' || c = 'E' then
      match rest with
      | '+' :: ds =>
        if !ds.isEmpty && ds.all Char.isDigit then some (decDigitsVal ds : Int) else none
      | '-' :: ds =>
        if !ds.isEmpty && ds.all Char.isDigit then some (-(decDigitsVal ds : Int)) else none
      | ds =>
        if !ds.isEmpty && ds.all Char.isDigit then some (decDigitsVal ds : Int) else none
    else none

/-- The exact rational `n * 10 ^ e` (the value of a scientific literal
with integer mantissa `n` and decimal exponent `e`). -/
def sciToRat (n : Int) (e : Int) : ℚ :=
  if 0 ≤ e then ((n * (10 : Int) ^ e.toNat : Int) : ℚ)
  else mkRat n ((10 : Nat) ^ (-e).toNat)

/-- Parse an ECMAScript StrUnsignedDecimalLiteral other than `Infinity`:
`DecimalDigits . DecimalDigits? ExponentPart?`, `. DecimalDigits
ExponentPart?`, or `DecimalDigits ExponentPart?`, consuming the whole
list.  The value `(ip + fp / 10 ^ |fp|) * 10 ^ e` is assembled as the
integer mantissa `ip * 10 ^ |fp| + fp` times `10 ^ (e - |fp|)`. -/
def parseUnsignedDec (l : List Char) : Option ℚ :=
  let ip := l.takeWhile Char.isDigit
  let r1 := l.dropWhile Char.isDigit
  match r1 with
  | '.' :: r2 =>
    let fp := r2.takeWhile Char.isDigit
    let r3 := r2.dropWhile Char.isDigit
    if ip.isEmpty && fp.isEmpty then none
    else
      match parseExponentRest r3 with
      | none => none
      | some e =>
        some (sciToRat
          ((decDigitsVal ip * 10 ^ fp.length + decDigitsVal fp : Nat) : Int)
          (e - (fp.length : Int)))
  | _ =>
    if ip.isEmpty then none
    else
      match parseExponentRest r1 with
      | none => none
      | some e => some (sciToRat ((decDigitsVal ip : Nat) : Int) e)

/-- Parse the body of a StrDecimalLiteral after any sign has been
consumed: `Infinity` or an unsigned decimal literal; NaN otherwise. -/
def parseUnsignedBody (l : List Char) : JSNum :=
  if l = ['I', 'n', 'f', 'i', 'n', 'i', 't', 'y'] then JSNum.posInf
  else
    match parseUnsignedDec l with
    | some q => JSNum.finite q
    | none => JSNum.nan

/-- ECMAScript `Number(string)` (ToNumber on a string): trim whitespace;
empty means 0; an optional sign followed by `Infinity` or a decimal
literal; unsigned hex/octal/binary literals; NaN otherwise. -/
def jsToNumber (s : String) : JSNum :=
  match jsTrimList s.toList with
  | [] => JSNum.finite 0
  | '+' :: r => parseUnsignedBody r
  | '-' :: r => (parseUnsignedBody r).neg
  | '0' :: 'x' :: r =>
    (match parseRadixDigits 16 r with
     | some n => JSNum.finite (n : ℚ)
     | none => JSNum.nan)
  | '0' :: 'X' :: r =>
    (match parseRadixDigits 16 r with
     | some n => JSNum.finite (n : ℚ)
     | none => JSNum.nan)
  | '0' :: 'o' :: r =>
    (match parseRadixDigits 8 r with
     | some n => JSNum.finite (n : ℚ)
     | none => JSNum.nan)
  | '0' :: 'O' :: r =>
    (match parseRadixDigits 8 r with
     | some n => JSNum.finite (n : ℚ)
     | none => JSNum.nan)
  | '0' :: 'b' :: r =>
    (match parseRadixDigits 2 r with
     | some n => JSNum.finite (n : ℚ)
     | none => JSNum.nan)
  | '0' :: 'B' :: r =>
    (match parseRadixDigits 2 r with
     | some n => JSNum.finite (n : ℚ)
     | none => JSNum.nan)
  | l => parseUnsignedBody l

/-- Source api/src/functions/search.ts, clampK:
`if (!Number.isFinite(k)) return 8; return Math.max(1, Math.min(25, Math.floor(k)));`
The result is always integral, so the codomain is Int. -/
def clampK : JSNum → Int
  | JSNum.finite q => max 1 (min 25 ⌊q⌋)
  | _ => 8

/-- The frontend's `clampK` from `frontend/src/App.tsx` (shown in the
README): textually the same body as the API's. -/
def clampK_frontend : JSNum → Int
  | JSNum.finite q => max 1 (min 25 ⌊q⌋)
  | _ => 8

/-- JavaScript `a || d` specialised to an optional string `a` (null and
the empty string are falsy). -/
def jsOrElse (v : Option String) (d : String) : String :=
  match v with
  | none => d
  | some s => if s = "" then d else s

/-- The query parameters of a `GET /api/search` request: `q` and `k`,
each absent or a string. -/
structure HttpRequest where
  q : Option String
  k : Option String
deriving DecidableEq

/-- The `meta` object of a result row (README, `SearchResult.meta`). -/
structure ResultMeta where
  source_pdf : Option String
  source_text : Option String
  chunk_index : Option Int
  chunk_count : Option Int
deriving DecidableEq

/-- One search result row (README, `SearchResult`): id, distance, text,
and provenance metadata. -/
structure SearchResultItem where
  id : String
  distance : JSNum
  text : String
  meta : ResultMeta
deriving DecidableEq

/-- The JSON body returned by the handler: either `{ error }` (client
error) or `{ q, k, results }` (success). -/
inductive SearchBody where
  | error : String → SearchBody
  | success : String → Int → List SearchResultItem → SearchBody
deriving DecidableEq

/-- An HTTP response: status code and JSON body. -/
structure HttpResponseInit where
  status : Nat
  jsonBody : SearchBody
deriving DecidableEq

/-- Source api/src/functions/search.ts, search: read and trim `q`
(defaulting null to the empty string), clamp `k` (defaulting a null or
empty parameter to the string "8" before numeric conversion); reply 400
with an error body when the trimmed `q` is empty, else 200 with
`{ q, k, results: [] }` (the vector search is a stub returning no
results). -/
def search (req : HttpRequest) : HttpResponseInit :=
  let q := jsTrim (jsOrElse req.q "")
  let k := clampK (jsToNumber (jsOrElse req.k "8"))
  if q = "" then
    { status := 400, jsonBody := SearchBody.error "Missing required query param: q" }
  else
    { status := 200, jsonBody := SearchBody.success q k [] }

/-- Results sorted by non-decreasing distance (JS `<=` on adjacent
distances). -/
def sortedByDistance (rs : List SearchResultItem) : Prop :=
  List.Chain' (fun a b => jsNumLe a.distance b.distance = true) rs

/-! ## Ingestion pipeline, modelled from the spec

The ingestion pipeline (Download Manager, Chunker, Embedding Indexer) is
part of this repository but not of the source under review; the
definitions below are modelled from the spec and are used only for the
idempotence claim. -/

/-- Modelled from the spec: the `status` field of a DocumentRecord in
the download manifest. -/
inductive DocStatus where
  | pending : DocStatus
  | downloaded : DocStatus
  | failed : DocStatus
deriving DecidableEq

/-- Modelled from the spec: the manifest, a durable record keyed by URL;
every URL not yet discovered is `pending`. -/
def Manifest : Type := String → DocStatus

/-- Modelled from the spec: the transactional-per-record manifest update. -/
def setStatus (m : Manifest) (url : String) (st : DocStatus) : Manifest :=
  fun u => if u = url then st else m u

/-- Modelled from the spec: an IndexEntry row — `chunk_id` derived
deterministically from `(source_url, ordinal)`, the embedding vector,
and provenance metadata (source document identity, ordinal, sibling
chunk count). -/
structure IndexEntry where
  chunk_id : String × Nat
  embedding : List ℚ
  source_url : String
  ordinal : Nat
  chunk_total : Nat

/-- Modelled from the spec: chunking configuration — fixed window size
with a fixed overlap, so the stride is less than the window size. -/
def windowSize : Nat := 800

/-- Modelled from the spec: the stride between consecutive windows. -/
def windowStride : Nat := 600

/-- Modelled from the spec: number of fixed-stride windows covering a
text of `len` characters; an empty text yields zero chunks. -/
def numChunks (len : Nat) : Nat :=
  if len = 0 then 0 else (len - 1) / windowStride + 1

/-- Modelled from the spec: deterministic positional chunking of one
extracted text into overlapping fixed-size windows. -/
def chunkTexts (text : String) : List String :=
  (List.range (numChunks text.length)).map
    (fun i => String.mk ((text.toList.drop (i * windowStride)).take windowSize))

/-- Modelled from the spec: the IndexEntry rows produced for one
document by the Embedding Indexer — one per chunk, with `chunk_id`
derived from `(source_url, ordinal)` and a fixed embedding function. -/
def docEntries (embed : String → List ℚ) (url : String) (text : String) :
    List IndexEntry :=
  let cs := chunkTexts text
  (List.range cs.length).map fun i =>
    { chunk_id := (url, i)
      embedding := embed (cs.getD i "")
      source_url := url
      ordinal := i
      chunk_total := cs.length }

/-- Modelled from the spec: the two persisted artifacts the pipeline
keeps consistent — the manifest and the vector index. -/
structure PipelineState where
  manifest : Manifest
  index : List IndexEntry

/-- Modelled from the spec: the Embedding Indexer's remove-then-insert
policy — all existing rows for the document are removed, then the rows
for its current chunks are inserted as a unit. -/
def reindexDoc (embed : String → List ℚ) (st : PipelineState) (url : String)
    (text : String) : PipelineState :=
  { st with index := st.index.filter (fun e => e.source_url != url) ++ docEntries embed url text }

/-- Modelled from the spec: the per-URL pipeline step.  A URL already
`downloaded` is skipped (no re-fetch, no re-extraction, no re-index); a
failed fetch marks the record `failed` (retried on a later run); a
successful fetch re-indexes the document and marks it `downloaded`. -/
def processUrl (embed : String → List ℚ) (fetch : String → Option String)
    (st : PipelineState) (url : String) : PipelineState :=
  if st.manifest url = DocStatus.downloaded then st
  else
    match fetch url with
    | none => { st with manifest := setStatus st.manifest url DocStatus.failed }
    | some text =>
      let st1 := reindexDoc embed st url text
      { st1 with manifest := setStatus st1.manifest url DocStatus.downloaded }

/-- Modelled from the spec: one full pipeline run over the discovered
URL set, with a fixed embedding function and a fixed fetch outcome per
URL (the unchanged input set). -/
def runPipeline (embed : String → List ℚ) (fetch : String → Option String)
    (urls : List String) (st : PipelineState) : PipelineState :=
  urls.foldl (processUrl embed fetch) st

/-- Modelled from the spec: the initial state — nothing attempted, empty
index. -/
def initialState : PipelineState :=
  { manifest := fun _ => DocStatus.pending, index := [] }

/-- A manifest record is settled for an unchanged input set: either the
URL is downloaded, or it is failed and fetching it still fails. -/
def settledAt (fetch : String → Option String) (st : PipelineState)
    (url : String) : Prop :=
  st.manifest url = DocStatus.downloaded ∨
    (st.manifest url = DocStatus.failed ∧ fetch url = none)

/-- Well-formedness of the index: chunk ids are derived from
`(source_url, ordinal)` and are pairwise distinct. -/
def indexWF (l : List IndexEntry) : Prop :=
  (∀ e ∈ l, e.chunk_id = (e.source_url, e.ordinal)) ∧
  (l.map IndexEntry.chunk_id).Nodup

example : jsToNumber "200" = JSNum.finite 200 := by decide
example : jsToNumber "abc" = JSNum.nan := by decide
example : jsToNumber "8" = JSNum.finite 8 := by decide
example : jsToNumber "" = JSNum.finite 0 := by decide
example : jsToNumber " 2.5e1 " = JSNum.finite 25 := by decide
example : jsToNumber "-Infinity" = JSNum.negInf := by decide
example : jsToNumber "0x10" = JSNum.finite 16 := by decide
example : clampK (jsToNumber "200") = 25 := by decide
example : clampK (jsToNumber "0") = 1 := by decide
example : search ⟨some "flight logs", some "200"⟩ =
    ⟨200, SearchBody.success "flight logs" 25 []⟩ := by decide
example : search ⟨none, none⟩ =
    ⟨400, SearchBody.error "Missing required query param: q"⟩ := by decide

/-! ## Lemmas about the pipeline model -/

theorem setStatus_self (m : Manifest) (url : String) (st : DocStatus)
    (h : m url = st) : setStatus m url st = m := by
  funext u
  unfold setStatus
  by_cases hu : u = url
  · subst hu; simp [h]
  · simp [hu]

theorem setStatus_apply_self (m : Manifest) (url : String) (st : DocStatus) :
    setStatus m url st url = st := by
  simp [setStatus]

theorem setStatus_apply_other (m : Manifest) (url v : String) (st : DocStatus)
    (h : v ≠ url) : setStatus m url st v = m v := by
  simp [setStatus, h]

theorem processUrl_of_settled (embed : String → List ℚ)
    (fetch : String → Option String) (st : PipelineState) (url : String)
    (h : settledAt fetch st url) :
    processUrl embed fetch st url = st := by
  rcases h with h | ⟨hf, hn⟩
  · simp [processUrl, h]
  · have hne : ¬ st.manifest url = DocStatus.downloaded := by
      rw [hf]; intro hc; cases hc
    simp only [processUrl, hn, if_neg hne]
    cases st with
    | mk m i => simp [setStatus_self m url DocStatus.failed hf]

theorem processUrl_settles (embed : String → List ℚ)
    (fetch : String → Option String) (st : PipelineState) (url : String) :
    settledAt fetch (processUrl embed fetch st url) url := by
  by_cases hd : st.manifest url = DocStatus.downloaded
  · left; simp [processUrl, hd]
  · cases hf : fetch url with
    | none =>
      right
      constructor
      · simp [processUrl, hd, hf, setStatus_apply_self]
      · exact hf
    | some text =>
      left
      simp [processUrl, hd, hf, setStatus_apply_self]

theorem processUrl_manifest_other (embed : String → List ℚ)
    (fetch : String → Option String) (st : PipelineState) (u v : String)
    (h : v ≠ u) :
    (processUrl embed fetch st u).manifest v = st.manifest v := by
  by_cases hd : st.manifest u = DocStatus.downloaded
  · simp [processUrl, hd]
  · cases hf : fetch u with
    | none => simp [processUrl, hd, hf, setStatus_apply_other _ _ _ _ h]
    | some text => simp [processUrl, reindexDoc, hd, hf, setStatus_apply_other _ _ _ _ h]

theorem processUrl_preserves_settled (embed : String → List ℚ)
    (fetch : String → Option String) (st : PipelineState) (u v : String)
    (h : settledAt fetch st v) :
    settledAt fetch (processUrl embed fetch st u) v := by
  by_cases hv : v = u
  · subst hv; exact processUrl_settles embed fetch st v
  · unfold settledAt
    rw [processUrl_manifest_other embed fetch st u v hv]
    exact h

theorem runPipeline_preserves_settled (embed : String → List ℚ)
    (fetch : String → Option String) (urls : List String) (st : PipelineState)
    (v : String) (h : settledAt fetch st v) :
    settledAt fetch (runPipeline embed fetch urls st) v := by
  induction urls generalizing st with
  | nil => exact h
  | cons u rest ih =>
    exact ih (processUrl embed fetch st u)
      (processUrl_preserves_settled embed fetch st u v h)

theorem runPipeline_settles (embed : String → List ℚ)
    (fetch : String → Option String) (urls : List String) (st : PipelineState)
    (v : String) (hv : v ∈ urls) :
    settledAt fetch (runPipeline embed fetch urls st) v := by
  induction urls generalizing st with
  | nil => cases hv
  | cons u rest ih =>
    rcases List.mem_cons.mp hv with h | h
    · subst h
      exact runPipeline_preserves_settled embed fetch rest
        (processUrl embed fetch st v) v (processUrl_settles embed fetch st v)
    · exact ih (processUrl embed fetch st u) h

theorem runPipeline_of_settled (embed : String → List ℚ)
    (fetch : String → Option String) (urls : List String) (st : PipelineState)
    (h : ∀ v ∈ urls, settledAt fetch st v) :
    runPipeline embed fetch urls st = st := by
  induction urls with
  | nil => rfl
  | cons u rest ih =>
    have hu : processUrl embed fetch st u = st :=
      processUrl_of_settled embed fetch st u (h u (List.mem_cons_self u rest))
    show runPipeline embed fetch rest (processUrl embed fetch st u) = st
    rw [hu]
    exact ih (fun v hv => h v (List.mem_cons_of_mem u hv))

theorem docEntries_chunk_id (embed : String → List ℚ) (url : String)
    (text : String) (e : IndexEntry) (he : e ∈ docEntries embed url text) :
    e.chunk_id = (e.source_url, e.ordinal) ∧ e.source_url = url := by
  unfold docEntries at he
  simp only [List.mem_map, List.mem_range] at he
  obtain ⟨i, _, rfl⟩ := he
  exact ⟨rfl, rfl⟩

theorem docEntries_ids_nodup (embed : String → List ℚ) (url : String)
    (text : String) :
    ((docEntries embed url text).map IndexEntry.chunk_id).Nodup := by
  unfold docEntries
  rw [List.map_map]
  have : (IndexEntry.chunk_id ∘ fun i =>
      ({ chunk_id := (url, i)
         embedding := embed ((chunkTexts text).getD i "")
         source_url := url
         ordinal := i
         chunk_total := (chunkTexts text).length } : IndexEntry)) =
      fun i => (url, i) := rfl
  rw [this]
  exact List.Nodup.map (fun a b h => congrArg Prod.snd h) (List.nodup_range _)

theorem reindexDoc_indexWF (embed : String → List ℚ) (st : PipelineState)
    (url : String) (text : String) (h : indexWF st.index) :
    indexWF (reindexDoc embed st url text).index := by
  obtain ⟨hid, hnd⟩ := h
  unfold reindexDoc
  constructor
  · intro e he
    rcases List.mem_append.mp he with he | he
    · exact hid e (List.mem_of_mem_filter he)
    · exact (docEntries_chunk_id embed url text e he).1
  · rw [List.map_append]
    refine List.Nodup.append ?_ (docEntries_ids_nodup embed url text) ?_
    · exact ((List.filter_sublist _).map IndexEntry.chunk_id).nodup hnd
    · intro a ha hb
      simp only [List.mem_map] at ha hb
      obtain ⟨e, hef, rfl⟩ := ha
      obtain ⟨e2, he2, hide⟩ := hb
      have hne : e.source_url ≠ url := by
        have := List.of_mem_filter hef
        simpa using this
      have h1 : e.chunk_id = (e.source_url, e.ordinal) :=
        hid e (List.mem_of_mem_filter hef)
      have h2 : e2.chunk_id = (e2.source_url, e2.ordinal) ∧ e2.source_url = url :=
        docEntries_chunk_id embed url text e2 he2
      apply hne
      have : e.chunk_id.1 = e2.chunk_id.1 := by rw [hide]
      rw [h1, h2.1, h2.2] at this
      exact this

theorem processUrl_indexWF (embed : String → List ℚ)
    (fetch : String → Option String) (st : PipelineState) (url : String)
    (h : indexWF st.index) :
    indexWF (processUrl embed fetch st url).index := by
  unfold processUrl
  by_cases hd : st.manifest url = DocStatus.downloaded
  · simpa [hd] using h
  · cases hf : fetch url with
    | none => simpa [hd, hf] using h
    | some text =>
      simp only [hd, hf, if_neg hd]
      exact reindexDoc_indexWF embed st url text h

theorem runPipeline_indexWF (embed : String → List ℚ)
    (fetch : String → Option String) (urls : List String) (st : PipelineState)
    (h : indexWF st.index) :
    indexWF (runPipeline embed fetch urls st).index := by
  induction urls generalizing st with
  | nil => exact h
  | cons u rest ih =>
    exact ih (processUrl embed fetch st u) (processUrl_indexWF embed fetch st u h)

/-! ## Lemmas about the search handler -/

theorem jsTrim_of_all_whitespace (s : String)
    (h : ∀ c ∈ s.toList, isJsWhitespaceChar c) : jsTrim s = "" := by
  unfold jsTrim jsTrimList
  rw [List.dropWhile_eq_nil_iff.mpr h]
  rfl

theorem clampK_mem_range (x : JSNum) : 1 ≤ clampK x ∧ clampK x ≤ 25 := by
  cases x with
  | finite q =>
    exact ⟨le_max_left 1 _, max_le (by norm_num) (min_le_left 25 _)⟩
  | nan => exact ⟨by norm_num [clampK], by norm_num [clampK]⟩
  | posInf => exact ⟨by norm_num [clampK], by norm_num [clampK]⟩
  | negInf => exact ⟨by norm_num [clampK], by norm_num [clampK]⟩

theorem search_of_empty_q (req : HttpRequest)
    (h : jsTrim (jsOrElse req.q "") = "") :
    search req = ⟨400, SearchBody.error "Missing required query param: q"⟩ := by
  simp [search, h]

theorem search_of_valid_q (req : HttpRequest)
    (h : jsTrim (jsOrElse req.q "") ≠ "") :
    search req = ⟨200, SearchBody.success (jsTrim (jsOrElse req.q ""))
      (clampK (jsToNumber (jsOrElse req.k "8"))) []⟩ := by
  simp [search, h]

theorem clampK_of_not_finite (x : JSNum) (h : x.isFinite = false) :
    clampK x = 8 := by
  cases x with
  | finite q => simp [JSNum.isFinite] at h
  | nan => rfl
  | posInf => rfl
  | negInf => rfl

/-! ## The claims -/

/-- C1: the search operation clamps k into the range [1, 25]: any finite
numeric k above 25 yields k = 25 (in particular the request k = "200"
yields 25), any finite numeric k below 1 yields k = 1 (in particular
k = "0" yields 1), and the out-of-range values are corrected rather than
the request being rejected (both requests succeed with status 200). -/
theorem claim_C1 :
    (∀ q : ℚ, 25 < q → clampK (JSNum.finite q) = 25) ∧
    (∀ q : ℚ, q < 1 → clampK (JSNum.finite q) = 1) ∧
    search ⟨some "flight logs", some "200"⟩ =
      ⟨200, SearchBody.success "flight logs" 25 []⟩ ∧
    search ⟨some "flight logs", some "0"⟩ =
      ⟨200, SearchBody.success "flight logs" 1 []⟩ := by
  refine ⟨?_, ?_, by decide, by decide⟩
  · intro q hq
    have h1 : (25 : Int) ≤ ⌊q⌋ := Int.le_floor.mpr (by exact_mod_cast hq.le)
    show max 1 (min 25 ⌊q⌋) = 25
    rw [min_eq_left h1]
    exact max_eq_right (by norm_num)
  · intro q hq
    have h1 : ⌊q⌋ < (1 : Int) := Int.floor_lt.mpr (by exact_mod_cast hq)
    show max 1 (min 25 ⌊q⌋) = 1
    rw [min_eq_right (by omega)]
    exact max_eq_left (by omega)

/-- Witness for C1 at the concrete inputs 200 and 0. -/
theorem claim_C1_witness :
    clampK (JSNum.finite 200) = 25 ∧ clampK (JSNum.finite 0) = 1 :=
  ⟨claim_C1.1 200 (by decide), claim_C1.2.1 0 (by decide)⟩

/-- C2: a request whose q is missing or empty yields a client error
response: status 400 with an explanatory error message, and never a
success body (in particular not a success with an empty results list). -/
theorem claim_C2 (req : HttpRequest) (h : req.q = none ∨ req.q = some "") :
    (search req).status = 400 ∧
    (search req).jsonBody = SearchBody.error "Missing required query param: q" ∧
    ∀ qq kk rs, (search req).jsonBody ≠ SearchBody.success qq kk rs := by
  have hq : jsTrim (jsOrElse req.q "") = "" := by
    rcases h with h | h <;> rw [h] <;> rfl
  rw [search_of_empty_q req hq]
  exact ⟨rfl, rfl, fun qq kk rs hc => SearchBody.noConfusion hc⟩

/-- Witness for C2: the request with both parameters absent. -/
theorem claim_C2_witness :
    (search ⟨none, none⟩).status = 400 ∧
    (search ⟨none, none⟩).jsonBody
      = SearchBody.error "Missing required query param: q" :=
  ⟨(claim_C2 ⟨none, none⟩ (Or.inl rfl)).1, (claim_C2 ⟨none, none⟩ (Or.inl rfl)).2.1⟩

/-- C3 counterexample: with q = "flight logs" and the non-numeric
k = "abc" the handler does not surface any client-facing error: it
answers status 200 (not 400) and silently proceeds with the substituted
default k = 8, refuting the claim as stated. -/
theorem claim_C3_counterexample :
    (search ⟨some "flight logs", some "abc"⟩).status = 200 ∧
    (search ⟨some "flight logs", some "abc"⟩).jsonBody
      = SearchBody.success "flight logs" 8 [] ∧
    (search ⟨some "flight logs", some "abc"⟩).status ≠ 400 := by
  refine ⟨by decide, by decide, by decide⟩

/-- C3 (amended): a present but non-numeric k does not crash the handler
and does not cause an error response; the handler silently substitutes
the default k = 8 and answers the query with status 200. -/
theorem claim_C3 (req : HttpRequest)
    (h1 : jsTrim (jsOrElse req.q "") ≠ "")
    (h2 : (jsToNumber (jsOrElse req.k "8")).isFinite = false) :
    (search req).status = 200 ∧
    (search req).jsonBody
      = SearchBody.success (jsTrim (jsOrElse req.q "")) 8 [] := by
  rw [search_of_valid_q req h1, clampK_of_not_finite _ h2]
  exact ⟨rfl, rfl⟩

/-- Witness for C3 (amended) at q = "flight logs", k = "abc". -/
theorem claim_C3_witness :
    (search ⟨some "flight logs", some "abc"⟩).status = 200 ∧
    (search ⟨some "flight logs", some "abc"⟩).jsonBody
      = SearchBody.success (jsTrim (jsOrElse (some "flight logs") "")) 8 [] :=
  claim_C3 ⟨some "flight logs", some "abc"⟩ (by decide) (by decide)

/-- C4: every successful response's results list has length at most k and
is sorted by non-decreasing distance; and the underlying index being
empty (the handler's vector search is a stub over no index), a valid
query succeeds with status 200 and an empty results list rather than an
error. -/
theorem claim_C4 :
    (∀ req : HttpRequest, ∀ qq kk rs,
      (search req).jsonBody = SearchBody.success qq kk rs →
      (rs.length : Int) ≤ kk ∧ sortedByDistance rs) ∧
    (∀ req : HttpRequest, jsTrim (jsOrElse req.q "") ≠ "" →
      (search req).status = 200 ∧
      (search req).jsonBody
        = SearchBody.success (jsTrim (jsOrElse req.q ""))
            (clampK (jsToNumber (jsOrElse req.k "8"))) []) := by
  constructor
  · intro req qq kk rs h
    by_cases hq : jsTrim (jsOrElse req.q "") = ""
    · rw [search_of_empty_q req hq] at h
      exact absurd h (fun hc => SearchBody.noConfusion hc)
    · rw [search_of_valid_q req hq] at h
      obtain ⟨h1, h2, h3⟩ := SearchBody.success.inj h
      refine ⟨?_, ?_⟩
      · rw [← h3, ← h2]
        have hb := (clampK_mem_range (jsToNumber (jsOrElse req.k "8"))).1
        simp only [List.length_nil, Nat.cast_zero]
        omega
      · rw [← h3]
        exact List.chain'_nil
  · intro req hq
    rw [search_of_valid_q req hq]
    exact ⟨rfl, rfl⟩

/-- Witness for C4 at a concrete request and its concrete response. -/
theorem claim_C4_witness :
    (((([] : List SearchResultItem).length : Int) ≤ 25 ∧ sortedByDistance []) ∧
      ((search ⟨some "flight logs", none⟩).status = 200 ∧
        (search ⟨some "flight logs", none⟩).jsonBody
          = SearchBody.success (jsTrim (jsOrElse (some "flight logs") ""))
              (clampK (jsToNumber (jsOrElse (none : Option String) "8"))) [])) :=
  ⟨claim_C4.1 ⟨some "flight logs", some "200"⟩ "flight logs" 25 [] (by decide),
   claim_C4.2 ⟨some "flight logs", none⟩ (by decide)⟩

/-- C5: every successful response body has exactly the contract shape
with fields q, k, results: q echoes the (trimmed) query string, k is the
clamped integer that was used, and results is a list of rows of type
SearchResultItem — each row carries id, distance, text, and a meta
object with source document identity, chunk ordinal, and sibling chunk
count (the ResultMeta fields). -/
theorem claim_C5 (req : HttpRequest) (h : (search req).status = 200) :
    ∃ rs : List SearchResultItem,
      (search req).jsonBody
        = SearchBody.success (jsTrim (jsOrElse req.q ""))
            (clampK (jsToNumber (jsOrElse req.k "8"))) rs := by
  by_cases hq : jsTrim (jsOrElse req.q "") = ""
  · rw [search_of_empty_q req hq] at h
    exact absurd h (by norm_num)
  · exact ⟨[], by rw [search_of_valid_q req hq]⟩

/-- Witness for C5 at a concrete successful request. -/
theorem claim_C5_witness :
    ∃ rs : List SearchResultItem,
      (search ⟨some "flight logs", some "8"⟩).jsonBody
        = SearchBody.success (jsTrim (jsOrElse (some "flight logs") ""))
            (clampK (jsToNumber (jsOrElse (some "8") "8"))) rs :=
  claim_C5 ⟨some "flight logs", some "8"⟩ (by decide)

/-- C6: the handler is total over its inputs: for every request — any
present or absent q and k strings — it returns an HTTP response whose
status is 200 or 400.  The embedding of the handler is a total Lean
function, so no input makes it diverge or throw. -/
theorem claim_C6 (req : HttpRequest) :
    (search req).status = 200 ∨ (search req).status = 400 := by
  by_cases hq : jsTrim (jsOrElse req.q "") = ""
  · right; rw [search_of_empty_q req hq]
  · left; rw [search_of_valid_q req hq]

/-- C8: the handler trims surrounding whitespace from q before use — a
whitespace-only q yields exactly the same client-error response as a
missing q (status 400), and a successful response echoes the trimmed
query string, not the raw parameter. -/
theorem claim_C8 :
    (∀ req : HttpRequest, (∀ c ∈ (jsOrElse req.q "").toList, isJsWhitespaceChar c) →
      search req = search ⟨none, req.k⟩ ∧ (search req).status = 400) ∧
    (∀ req : HttpRequest, ∀ qq kk rs,
      (search req).jsonBody = SearchBody.success qq kk rs →
      qq = jsTrim (jsOrElse req.q "")) := by
  constructor
  · intro req hws
    have hq : jsTrim (jsOrElse req.q "") = "" :=
      jsTrim_of_all_whitespace _ hws
    rw [search_of_empty_q req hq,
      search_of_empty_q ⟨none, req.k⟩ (by rfl)]
    exact ⟨rfl, rfl⟩
  · intro req qq kk rs h
    by_cases hq : jsTrim (jsOrElse req.q "") = ""
    · rw [search_of_empty_q req hq] at h
      exact absurd h (fun hc => SearchBody.noConfusion hc)
    · rw [search_of_valid_q req hq] at h
      exact (SearchBody.success.inj h).1.symm

/-- Witness for C8: a whitespace-only q behaves like a missing q, and a
concrete padded query is echoed trimmed. -/
theorem claim_C8_witness :
    ((search ⟨some "   ", none⟩ = search ⟨none, none⟩ ∧
      (search ⟨some "   ", none⟩).status = 400) ∧
      "flight logs" = jsTrim (jsOrElse (some " flight logs ") "")) :=
  ⟨claim_C8.1 ⟨some "   ", none⟩ (by decide),
   claim_C8.2 ⟨some " flight logs ", some "8"⟩ "flight logs" 8 [] (by decide)⟩

/-- C9: when k is absent, or present but not convertible to a finite
number, the handler proceeds with the default k = 8; and the k of every
successful response is an integer in [1, 25]. -/
theorem claim_C9 :
    (∀ req : HttpRequest, req.k = none →
      ∀ qq kk rs, (search req).jsonBody = SearchBody.success qq kk rs → kk = 8) ∧
    (∀ req : HttpRequest, ∀ s : String, req.k = some s → s ≠ "" →
      (jsToNumber s).isFinite = false →
      ∀ qq kk rs, (search req).jsonBody = SearchBody.success qq kk rs → kk = 8) ∧
    (∀ req : HttpRequest, ∀ qq kk rs,
      (search req).jsonBody = SearchBody.success qq kk rs →
      1 ≤ kk ∧ kk ≤ 25) := by
  have hbody : ∀ req : HttpRequest, ∀ qq kk rs,
      (search req).jsonBody = SearchBody.success qq kk rs →
      kk = clampK (jsToNumber (jsOrElse req.k "8")) := by
    intro req qq kk rs h
    by_cases hq : jsTrim (jsOrElse req.q "") = ""
    · rw [search_of_empty_q req hq] at h
      exact absurd h (fun hc => SearchBody.noConfusion hc)
    · rw [search_of_valid_q req hq] at h
      exact (SearchBody.success.inj h).2.1.symm
  refine ⟨?_, ?_, ?_⟩
  · intro req hk qq kk rs h
    rw [hbody req qq kk rs h, hk]
    decide
  · intro req s hk hs hnf qq kk rs h
    rw [hbody req qq kk rs h, hk]
    have : jsOrElse (some s) "8" = s := by simp [jsOrElse, hs]
    rw [this]
    exact clampK_of_not_finite _ hnf
  · intro req qq kk rs h
    rw [hbody req qq kk rs h]
    exact clampK_mem_range _

/-- Witness for C9: absent k and the non-numeric k = "abc" both produce
k = 8, and a successful response's k lies in [1, 25]. -/
theorem claim_C9_witness :
    ((8 : Int) = 8 ∧ (8 : Int) = 8 ∧ ((1 : Int) ≤ 8 ∧ (8 : Int) ≤ 25)) :=
  ⟨claim_C9.1 ⟨some "flight logs", none⟩ rfl "flight logs" 8 [] (by decide),
   claim_C9.2.1 ⟨some "flight logs", some "abc"⟩ "abc" rfl (by decide) (by decide)
     "flight logs" 8 [] (by decide),
   claim_C9.2.2 ⟨some "flight logs", some "8"⟩ "flight logs" 8 [] (by decide)⟩

/-- C10: the server-side clampK and the frontend clampK are
extensionally equal — and both send a non-finite input to 8 and a finite
input q to max 1 (min 25 (floor q)), so client and server agree on the
effective k. -/
theorem claim_C10 :
    (∀ x : JSNum, clampK x = clampK_frontend x) ∧
    (∀ x : JSNum, x.isFinite = false → clampK x = 8) ∧
    (∀ q : ℚ, clampK (JSNum.finite q) = max 1 (min 25 ⌊q⌋)) := by
  refine ⟨fun x => ?_, clampK_of_not_finite, fun q => rfl⟩
  cases x <;> rfl

/-- Witness for C10 at the non-finite input NaN. -/
theorem claim_C10_witness : clampK JSNum.nan = 8 :=
  claim_C10.2.1 JSNum.nan rfl

/-- C7: running the full pipeline twice on an unchanged input set (the
same fetch outcomes and the same embedding function) is idempotent: the
second run reproduces the first run's state exactly — hence identical
manifest status counts over the discovered URLs and identical chunk IDs
in the index — and the index holds no duplicate chunk ids; further runs
therefore converge to the same state. -/
theorem claim_C7 (embed : String → List ℚ) (fetch : String → Option String)
    (urls : List String) :
    runPipeline embed fetch urls (runPipeline embed fetch urls initialState)
      = runPipeline embed fetch urls initialState ∧
    (∀ st : DocStatus,
      urls.countP (fun u =>
        (runPipeline embed fetch urls
          (runPipeline embed fetch urls initialState)).manifest u == st)
        = urls.countP (fun u =>
            (runPipeline embed fetch urls initialState).manifest u == st)) ∧
    (runPipeline embed fetch urls
        (runPipeline embed fetch urls initialState)).index.map IndexEntry.chunk_id
      = (runPipeline embed fetch urls initialState).index.map IndexEntry.chunk_id ∧
    ((runPipeline embed fetch urls initialState).index.map
        IndexEntry.chunk_id).Nodup := by
  have hfix : runPipeline embed fetch urls (runPipeline embed fetch urls initialState)
      = runPipeline embed fetch urls initialState :=
    runPipeline_of_settled embed fetch urls _
      (fun v hv => runPipeline_settles embed fetch urls initialState v hv)
  refine ⟨hfix, fun st => by rw [hfix], by rw [hfix], ?_⟩
  exact (runPipeline_indexWF embed fetch urls initialState
    ⟨fun e he => absurd he (List.not_mem_nil e), List.nodup_nil⟩).2
